import Mathlib

/-!
Shallow embedding of the tradebook backtesting core
(`internal/account/account.go`, `internal/backtest/engine.go`,
`internal/backtest/stats.go`, `internal/strategy/indicators.go`).

Conventions: Go `float64` prices and balances are modelled as `ℚ`,
`time.Time` and `time.Duration` as `ℤ` (nanoseconds), Go slices as
`List`, and pointer-mutating methods as state-passing functions
returning the updated `Account` together with their Go return value.
Strategies are modelled as pure decision functions (the `Strategy`
interface and its single method `OnBar`), which return signals and do not
mutate the account — the contract the engine documents.
-/

namespace Tradebook

/-- Go `types.Bar` — one OHLCV sample (`internal/types`). -/
structure Bar where
  Timestamp : ℤ
  Open : ℚ
  High : ℚ
  Low : ℚ
  Close : ℚ
  Volume : ℚ
  deriving DecidableEq, Repr, Inhabited

/-- Go `types.Action` — `BUY` / `SELL` string constants. -/
inductive Action where
  | BUY
  | SELL
  deriving DecidableEq, Repr, Inhabited

/-- Go `types.Signal` — a strategy request (Go field `Type` is `SigType` here,
Lean reserves the word). -/
structure Signal where
  SigType : String
  Action : Action
  Price : ℚ
  TP : ℚ
  SL : ℚ
  Size : ℚ
  deriving DecidableEq, Repr, Inhabited

/-- Go `account.Direction` — `"LONG"` / `"SHORT"`. -/
inductive Direction where
  | LONG
  | SHORT
  deriving DecidableEq, Repr, Inhabited

/-- Go `account.Position` — an open exposure. -/
structure Position where
  ID : ℕ
  OpenTime : ℤ
  Direction : Direction
  EntryPrice : ℚ
  Size : ℚ
  StopLoss : ℚ
  TakeProfit : ℚ
  deriving DecidableEq, Repr, Inhabited

/-- Go `account.Trade` — an immutable realized outcome. -/
structure Trade where
  ID : ℕ
  EntryTime : ℤ
  ExitTime : ℤ
  Direction : Direction
  EntryPrice : ℚ
  ExitPrice : ℚ
  Size : ℚ
  StopLoss : ℚ
  TakeProfit : ℚ
  PnL : ℚ
  PnLPercent : ℚ
  ExitReason : String
  deriving DecidableEq, Repr, Inhabited

/-- Go `account.Account` — balance plus open positions. -/
structure Account where
  Balance : ℚ
  openPositions : List Position
  nextPositionID : ℕ
  deriving DecidableEq, Repr, Inhabited

/-- Go `account.NewAccount`. -/
def NewAccount (initialBalance : ℚ) : Account :=
  { Balance := initialBalance, openPositions := [], nextPositionID := 1 }

/-- Go `Account.OpenTrade` — maps the signal to a directional position with the
next sequential ID, appends it to the open set, returns it. -/
def Account.OpenTrade (a : Account) (signal : Signal) (timestamp : ℤ) :
    Account × Position :=
  let dir : Direction :=
    match signal.Action with
    | .BUY => .LONG
    | .SELL => .SHORT
  let pos : Position :=
    { ID := a.nextPositionID
      OpenTime := timestamp
      Direction := dir
      EntryPrice := signal.Price
      Size := signal.Size
      StopLoss := signal.SL
      TakeProfit := signal.TP }
  ({ a with nextPositionID := a.nextPositionID + 1
            openPositions := a.openPositions ++ [pos] }, pos)

/-- Go `Account.closePosition` — computes PnL by direction, adds it to the
balance, and builds the Trade record. -/
def Account.closePosition (a : Account) (pos : Position) (exitPrice : ℚ)
    (exitTime : ℤ) (reason : String) : Account × Trade :=
  let pnl : ℚ :=
    match pos.Direction with
    | .LONG => (exitPrice - pos.EntryPrice) * pos.Size
    | .SHORT => (pos.EntryPrice - exitPrice) * pos.Size
  ({ a with Balance := a.Balance + pnl },
   { ID := pos.ID
     EntryTime := pos.OpenTime
     ExitTime := exitTime
     Direction := pos.Direction
     EntryPrice := pos.EntryPrice
     ExitPrice := exitPrice
     Size := pos.Size
     StopLoss := pos.StopLoss
     TakeProfit := pos.TakeProfit
     PnL := pnl
     PnLPercent := pnl / pos.EntryPrice * 100
     ExitReason := reason })

/-- Body of the `CheckExits` loop for one position: both the stop-loss and
the take-profit conditions are tested (not as exclusive branches); each hit
calls `closePosition` (mutating the balance), and the local `trade` variable
is overwritten by the later hit, exactly as in the source. -/
def Account.checkExitOne (a : Account) (pos : Position) (bar : Bar) :
    Account × Option Trade :=
  match pos.Direction with
  | .LONG =>
    let s1 : Account × Option Trade :=
      if bar.Low ≤ pos.StopLoss then
        let r := a.closePosition pos pos.StopLoss bar.Timestamp "STOP_LOSS"
        (r.1, some r.2)
      else (a, none)
    if bar.High ≥ pos.TakeProfit then
      let r := s1.1.closePosition pos pos.TakeProfit bar.Timestamp "TAKE_PROFIT"
      (r.1, some r.2)
    else s1
  | .SHORT =>
    let s1 : Account × Option Trade :=
      if bar.High ≥ pos.StopLoss then
        let r := a.closePosition pos pos.StopLoss bar.Timestamp "STOP_LOSS"
        (r.1, some r.2)
      else (a, none)
    if bar.Low ≤ pos.TakeProfit then
      let r := s1.1.closePosition pos pos.TakeProfit bar.Timestamp "TAKE_PROFIT"
      (r.1, some r.2)
    else s1

/-- The `CheckExits` loop over a list of positions: accumulates the closed
trades and the remaining (untriggered) positions in iteration order. -/
def Account.checkExitsList (a : Account) (ps : List Position) (bar : Bar) :
    Account × List Trade × List Position :=
  match ps with
  | [] => (a, [], [])
  | pos :: rest =>
    let s := a.checkExitOne pos bar
    let r := s.1.checkExitsList rest bar
    match s.2 with
    | some t => (r.1, t :: r.2.1, r.2.2)
    | none => (r.1, r.2.1, pos :: r.2.2)

/-- Go `Account.CheckExits` — checks every open position against the bar,
removes the closed ones from the open set, returns the newly closed trades. -/
def Account.CheckExits (a : Account) (bar : Bar) : Account × List Trade :=
  let r := a.checkExitsList a.openPositions bar
  ({ r.1 with openPositions := r.2.2 }, r.2.1)

/-- The `CloseAll` loop: force-closes each position at `lastBar.Close`. -/
def Account.closeAllList (a : Account) (ps : List Position) (lastBar : Bar) :
    Account × List Trade :=
  match ps with
  | [] => (a, [])
  | pos :: rest =>
    let s := a.closePosition pos lastBar.Close lastBar.Timestamp "END_OF_BACKTEST"
    let r := s.1.closeAllList rest lastBar
    (r.1, s.2 :: r.2)

/-- Go `Account.CloseAll` — force-closes every open position with reason
`END_OF_BACKTEST` and clears the open set. -/
def Account.CloseAll (a : Account) (lastBar : Bar) : Account × List Trade :=
  let r := a.closeAllList a.openPositions lastBar
  ({ r.1 with openPositions := [] }, r.2)

/-- Go `Account.OpenPositions`. -/
def Account.OpenPositions (a : Account) : List Position :=
  a.openPositions

/-- Go `Account.PositionCount`. -/
def Account.PositionCount (a : Account) : ℕ :=
  a.openPositions.length

/-- Go `backtest.OPEN_TRADE`. -/
def OPEN_TRADE : String := "OPEN_TRADE"

/-- The engine `Strategy` interface: a single decision function `OnBar`. -/
def Strategy : Type :=
  List Bar → ℕ → Account → List Signal

/-- Go `backtest.Engine`. -/
structure Engine where
  Bars : List Bar
  initialBalance : ℚ

/-- Go `backtest.Results` (the `stats` memoization pointer is dropped:
`Calculate` is modelled as the pure function it caches). -/
structure Results where
  InitialBalance : ℚ
  FinalBalance : ℚ
  Trades : List Trade
  deriving DecidableEq, Repr, Inhabited

/-- The inner signal loop of `Engine.Run`: every signal whose `Type` is
`OPEN_TRADE` opens a trade at the timestamp of the bar. -/
def processSignals (a : Account) (signals : List Signal) (ts : ℤ) : Account :=
  signals.foldl
    (fun acc signal =>
      if signal.SigType = OPEN_TRADE then (acc.OpenTrade signal ts).1 else acc)
    a

/-- The main loop of `Engine.Run` over the bar sequence: for each bar,
first `CheckExits`, then the strategy method `OnBar`, then the signal loop. -/
def Engine.runBars (allBars : List Bar) (strategy : Strategy) :
    Account → ℕ → List Bar → Account × List Trade
  | a, _, [] => (a, [])
  | a, i, bar :: rest =>
    let p := a.CheckExits bar
    let signals := strategy allBars i p.1
    let a2 := processSignals p.1 signals bar.Timestamp
    let q := Engine.runBars allBars strategy a2 (i + 1) rest
    (q.1, p.2 ++ q.2)

/-- Go `Engine.Run`, also exposing the final state of the internal account
(the Go function keeps it local). -/
def Engine.RunFull (e : Engine) (strategy : Strategy) : Results × Account :=
  let acc := NewAccount e.initialBalance
  let p := Engine.runBars e.Bars strategy acc 0 e.Bars
  match e.Bars.getLast? with
  | some lastBar =>
    let q := p.1.CloseAll lastBar
    ({ InitialBalance := 10000, FinalBalance := q.1.Balance,
       Trades := p.2 ++ q.2 }, q.1)
  | none =>
    ({ InitialBalance := 10000, FinalBalance := p.1.Balance,
       Trades := p.2 }, p.1)

/-- Go `Engine.Run`. -/
def Engine.Run (e : Engine) (strategy : Strategy) : Results :=
  (e.RunFull strategy).1

/-- Go `backtest.Statistics` (`time.Duration` as `ℤ` nanoseconds). -/
structure Statistics where
  TotalTrades : ℕ
  WinningTrades : ℕ
  LosingTrades : ℕ
  WinRate : ℚ
  TotalPnL : ℚ
  TotalPnLPercent : ℚ
  GrossProfit : ℚ
  GrossLoss : ℚ
  ProfitFactor : ℚ
  AvgWin : ℚ
  AvgLoss : ℚ
  ExpectedValue : ℚ
  MaxDrawdown : ℚ
  MaxDrawdownPercent : ℚ
  AvgTradeDuration : ℤ
  deriving DecidableEq, Repr, Inhabited

/-- The zero-valued `Statistics` record (the Go zero value). -/
def Statistics.zero : Statistics :=
  { TotalTrades := 0, WinningTrades := 0, LosingTrades := 0, WinRate := 0,
    TotalPnL := 0, TotalPnLPercent := 0, GrossProfit := 0, GrossLoss := 0,
    ProfitFactor := 0, AvgWin := 0, AvgLoss := 0, ExpectedValue := 0,
    MaxDrawdown := 0, MaxDrawdownPercent := 0, AvgTradeDuration := 0 }

/-- Local accumulators of the `Calculate` trade loop. -/
structure CalcState where
  winning : ℕ
  losing : ℕ
  totalWin : ℚ
  totalLoss : ℚ
  totalDuration : ℤ
  runningBalance : ℚ
  peak : ℚ
  maxDD : ℚ
  deriving DecidableEq, Repr, Inhabited

/-- One iteration of the `Calculate` trade loop: win/loss counting,
the running-balance drawdown update, and duration accumulation. -/
def calcStep (st : CalcState) (trade : Trade) : CalcState :=
  let st :=
    if trade.PnL > 0 then
      { st with winning := st.winning + 1, totalWin := st.totalWin + trade.PnL }
    else if trade.PnL < 0 then
      { st with losing := st.losing + 1, totalLoss := st.totalLoss + trade.PnL }
    else st
  let runningBalance := st.runningBalance + trade.PnL
  let peak := if runningBalance > st.peak then runningBalance else st.peak
  let dd := peak - runningBalance
  let maxDD := if dd > st.maxDD then dd else st.maxDD
  { st with runningBalance := runningBalance, peak := peak, maxDD := maxDD,
            totalDuration := st.totalDuration + (trade.ExitTime - trade.EntryTime) }

/-- Accumulated state of the `Calculate` trade loop over the whole list. -/
def Results.calcLoop (r : Results) : CalcState :=
  r.Trades.foldl calcStep
    { winning := 0, losing := 0, totalWin := 0, totalLoss := 0,
      totalDuration := 0, runningBalance := r.InitialBalance,
      peak := r.InitialBalance, maxDD := 0 }

/-- Go `Results.Calculate` — derives the statistics from the trade list
(the memoization through `r.stats` is dropped; the Go truncating integer
division of durations is `Int.tdiv`). -/
def Results.Calculate (r : Results) : Statistics :=
  let stats := { Statistics.zero with TotalTrades := r.Trades.length }
  if r.Trades.length = 0 then stats
  else
    let st := r.calcLoop
    let totalPnL := r.FinalBalance - r.InitialBalance
    { stats with
      WinningTrades := st.winning
      LosingTrades := st.losing
      WinRate := (st.winning : ℚ) / (stats.TotalTrades : ℚ) * 100
      GrossProfit := st.totalWin
      GrossLoss := st.totalLoss
      TotalPnL := totalPnL
      TotalPnLPercent := totalPnL / r.InitialBalance * 100
      ProfitFactor := if st.totalLoss ≠ 0 then st.totalWin / (-st.totalLoss) else 0
      AvgWin := if st.winning > 0 then st.totalWin / (st.winning : ℚ) else 0
      AvgLoss := if st.losing > 0 then st.totalLoss / (st.losing : ℚ) else 0
      ExpectedValue := totalPnL / (stats.TotalTrades : ℚ)
      MaxDrawdown := st.maxDD
      MaxDrawdownPercent := if st.peak > 0 then st.maxDD / st.peak * 100 else 0
      AvgTradeDuration := st.totalDuration.tdiv (stats.TotalTrades : ℤ) }

/-- Go `strategy.EMA`. -/
structure EMA where
  period : ℕ
  value : ℚ
  alpha : ℚ
  init : Bool
  deriving DecidableEq, Repr, Inhabited

/-- Go `strategy.NewEMA` — α = 2/(period+1). -/
def NewEMA (period : ℕ) : EMA :=
  { period := period, value := 0, alpha := 2 / ((period : ℚ) + 1), init := false }

/-- Go `EMA.Update` — first update seeds the value, later ones smooth. -/
def EMA.Update (e : EMA) (price : ℚ) : EMA :=
  if !e.init then { e with value := price, init := true }
  else { e with value := price * e.alpha + e.value * (1 - e.alpha) }

/-- Go `EMA.Value`. -/
def EMA.Value (e : EMA) : ℚ := e.value

/-- Go `EMA.Ready`. -/
def EMA.Ready (e : EMA) : Bool := e.init

/-- Go `math.Abs` on the rational model. -/
def mathAbs (x : ℚ) : ℚ := if x < 0 then -x else x

/-- Go `math.Max` on the rational model. -/
def mathMax (x y : ℚ) : ℚ := if x < y then y else x

/-- Go `strategy.ATR`. -/
structure ATR where
  period : ℕ
  ema : EMA
  prevBar : Option Bar
  ready : Bool
  warmup : ℕ
  deriving DecidableEq, Repr, Inhabited

/-- Go `strategy.NewATR`. -/
def NewATR (period : ℕ) : ATR :=
  { period := period, ema := NewEMA period, prevBar := none,
    ready := false, warmup := 0 }

/-- Go `ATR.Update` — first bar only seeds `prevBar`; afterwards the true
range feeds the internal EMA and the warmup counter advances. -/
def ATR.Update (a : ATR) (bar : Bar) : ATR :=
  match a.prevBar with
  | none => { a with prevBar := some bar }
  | some prev =>
    let tr1 := bar.High - bar.Low
    let tr2 := mathAbs (bar.High - prev.Close)
    let tr3 := mathAbs (bar.Low - prev.Close)
    let tr := mathMax tr1 (mathMax tr2 tr3)
    let warmup := a.warmup + 1
    { a with ema := a.ema.Update tr, prevBar := some bar, warmup := warmup,
             ready := if warmup ≥ a.period then true else a.ready }

/-- Go `ATR.Value`. -/
def ATR.Value (a : ATR) : ℚ := a.ema.Value

/-- Go `ATR.Ready`. -/
def ATR.Ready (a : ATR) : Bool := a.ready

/-- Go `strategy.ATRCandle`. -/
structure ATRCandle where
  atrPeriod : ℕ
  atrMultiplier : ℚ
  withRelativeSize : Bool
  relativeSize : ℚ
  atr : ATR
  prevBar : Option Bar
  violationCount : ℕ
  deriving DecidableEq, Repr, Inhabited

/-- Go `strategy.NewATRCandle`. -/
def NewATRCandle (atrPeriod : ℕ) (atrMultiplier relativeSize : ℚ)
    (withRelativeSize : Bool) : ATRCandle :=
  { atrPeriod := atrPeriod, atrMultiplier := atrMultiplier,
    withRelativeSize := withRelativeSize, relativeSize := relativeSize,
    atr := NewATR atrPeriod, prevBar := none, violationCount := 0 }

/-- Go `ATRCandle.checkViolation` — candle body vs the ATR threshold, plus the
optional relative-size (engulfing) condition against the previous bar. -/
def ATRCandle.checkViolation (a : ATRCandle) (currentBar : Bar) : Bool :=
  let absDiff := mathAbs (currentBar.Close - currentBar.Open)
  let atrThreshold := a.atr.Value * a.atrMultiplier
  let atrViolation : Bool := absDiff > atrThreshold
  match a.prevBar with
  | none => atrViolation
  | some prev =>
    if !a.withRelativeSize then atrViolation
    else
      let prevAbsDiff := mathAbs (prev.Close - prev.Open)
      let relativeThreshold := prevAbsDiff * a.relativeSize
      let isEngulfing : Bool := absDiff > relativeThreshold
      atrViolation && isEngulfing

/-- Go `ATRCandle.Update` — feeds the ATR, then (once the ATR is ready)
increments the violation counter on a violating bar; finally records the
bar as the new previous bar. There is no path that resets the counter. -/
def ATRCandle.Update (a : ATRCandle) (bar : Bar) : ATRCandle :=
  let a1 := { a with atr := a.atr.Update bar }
  let a2 :=
    if a1.atr.Ready then
      if a1.checkViolation bar then
        { a1 with violationCount := a1.violationCount + 1 }
      else a1
    else a1
  { a2 with prevBar := some bar }

/-- Go `ATRCandle.Value` — 1 when the counter is positive, else 0. -/
def ATRCandle.Value (a : ATRCandle) : ℚ :=
  if a.violationCount > 0 then 1 else 0

/-- Go `ATRCandle.Ready`. -/
def ATRCandle.Ready (a : ATRCandle) : Bool :=
  a.atr.Ready && a.prevBar.isSome

/-- The directional exit rule of `CheckExits`, as a predicate on one
position and one bar (long: `Low ≤ SL` or `High ≥ TP`; short: `High ≥ SL`
or `Low ≤ TP`). -/
def exitTriggered (pos : Position) (bar : Bar) : Bool :=
  match pos.Direction with
  | .LONG => decide (bar.Low ≤ pos.StopLoss) || decide (bar.High ≥ pos.TakeProfit)
  | .SHORT => decide (bar.High ≥ pos.StopLoss) || decide (bar.Low ≤ pos.TakeProfit)

/-- Both exit conditions of `CheckExits` hold at once for the position on
this bar — the double-closure situation. -/
def doubleTriggered (pos : Position) (bar : Bar) : Bool :=
  match pos.Direction with
  | .LONG => decide (bar.Low ≤ pos.StopLoss) && decide (bar.High ≥ pos.TakeProfit)
  | .SHORT => decide (bar.High ≥ pos.StopLoss) && decide (bar.Low ≤ pos.TakeProfit)

/-- Monitor replaying the `Engine.Run` loop: true when no open position is
double-triggered on any bar of the run. -/
def Engine.runBarsClean (allBars : List Bar) (strategy : Strategy) :
    Account → ℕ → List Bar → Bool
  | _, _, [] => true
  | a, i, bar :: rest =>
    (a.openPositions.all fun p => ! doubleTriggered p bar) &&
    (let p := a.CheckExits bar
     let signals := strategy allBars i p.1
     let a2 := processSignals p.1 signals bar.Timestamp
     Engine.runBarsClean allBars strategy a2 (i + 1) rest)

/-- Monitor for a whole engine run: no double-triggered position anywhere. -/
def Engine.RunClean (e : Engine) (strategy : Strategy) : Bool :=
  Engine.runBarsClean e.Bars strategy (NewAccount e.initialBalance) 0 e.Bars

/-- The three mutating operations a caller can perform on an `Account`
during its lifetime. -/
inductive AccountOp where
  | opOpenTrade (signal : Signal) (timestamp : ℤ)
  | opCheckExits (bar : Bar)
  | opCloseAll (bar : Bar)
  deriving DecidableEq, Repr

/-- Apply one operation, returning the new account and the trades the
operation reported. -/
def Account.applyOp (a : Account) : AccountOp → Account × List Trade
  | .opOpenTrade s ts => ((a.OpenTrade s ts).1, [])
  | .opCheckExits bar => a.CheckExits bar
  | .opCloseAll bar => a.CloseAll bar

/-- Apply a sequence of operations, concatenating the reported trades. -/
def Account.runOps (a : Account) : List AccountOp → Account × List Trade
  | [] => (a, [])
  | op :: rest =>
    let p := a.applyOp op
    let q := p.1.runOps rest
    (q.1, p.2 ++ q.2)

/-- Number of `opOpenTrade` operations in a sequence. -/
def opensCount : List AccountOp → ℕ
  | [] => 0
  | .opOpenTrade _ _ :: rest => opensCount rest + 1
  | _ :: rest => opensCount rest

/-- The position IDs handed out by `OpenTrade`, in the order the positions
were opened, along a sequence of operations. -/
def assignedIDs (a : Account) : List AccountOp → List ℕ
  | [] => []
  | .opOpenTrade s ts :: rest =>
    (a.OpenTrade s ts).2.ID :: assignedIDs (a.OpenTrade s ts).1 rest
  | op :: rest => assignedIDs (a.applyOp op).1 rest

/-! Concrete fixtures used by counterexamples and witnesses. -/

/-- Bar 0 of the engine-level test scenario of the repository. -/
def tb0 : Bar :=
  { Timestamp := 0, Open := 100, High := 100, Low := 100, Close := 100, Volume := 1000 }

/-- Bar 1 of the engine-level test scenario of the repository. -/
def tb1 : Bar :=
  { Timestamp := 15, Open := 100, High := 105, Low := 105, Close := 105, Volume := 1200 }

/-- Bar 2 of the engine-level test scenario of the repository. -/
def tb2 : Bar :=
  { Timestamp := 30, Open := 99.5, High := 110, Low := 110, Close := 110, Volume := 1100 }

/-- Bar 3 of the engine-level test scenario of the repository. -/
def tb3 : Bar :=
  { Timestamp := 45, Open := 101, High := 120, Low := 120, Close := 120, Volume := 1300 }

/-- The strategy of the engine-level test of the repository: long on bar 0
with a close take-profit, short on bar 1 with distant levels. -/
def testStrat : Strategy := fun bars i _ =>
  if i = 0 then
    [{ SigType := "OPEN_TRADE", Action := .BUY, Price := (bars.getD i default).Close,
       TP := (bars.getD i default).Close + 5, SL := (bars.getD i default).Close - 50,
       Size := 1 }]
  else if i = 1 then
    [{ SigType := "OPEN_TRADE", Action := .SELL, Price := (bars.getD i default).Close,
       TP := (bars.getD i default).Close - 50, SL := (bars.getD i default).Close + 100,
       Size := 1 }]
  else []

/-- The engine of the engine-level test of the repository. -/
def testEng : Engine := { Bars := [tb0, tb1, tb2, tb3], initialBalance := 10000 }

/-- The take-profit trade the test scenario produces on bar 1. -/
def testTrade : Trade :=
  { ID := 1, EntryTime := 0, ExitTime := 15, Direction := .LONG,
    EntryPrice := 100, ExitPrice := 105, Size := 1, StopLoss := 50,
    TakeProfit := 105, PnL := 5, PnLPercent := 5, ExitReason := "TAKE_PROFIT" }

/-- First bar of the double-trigger run: flat at 100. -/
def dtb0 : Bar :=
  { Timestamp := 0, Open := 100, High := 100, Low := 100, Close := 100, Volume := 0 }

/-- Second bar of the double-trigger run: its range [8, 12] covers both the
stop-loss 9 and the take-profit 11 of the position opened on bar 0. -/
def dtb1 : Bar :=
  { Timestamp := 1, Open := 10, High := 12, Low := 8, Close := 10, Volume := 0 }

/-- Strategy of the double-trigger run: one long on bar 0 with stop-loss 9
and take-profit 11. -/
def dtStrat : Strategy := fun _ i _ =>
  if i = 0 then
    [{ SigType := "OPEN_TRADE", Action := .BUY, Price := 10, TP := 11, SL := 9,
       Size := 1 }]
  else []

/-- Engine of the double-trigger run, initial balance 100. -/
def dtEng : Engine := { Bars := [dtb0, dtb1], initialBalance := 100 }

/-- First bar fed to the ATRCandle counterexample detector (flat at 0). -/
def acb1 : Bar :=
  { Timestamp := 0, Open := 0, High := 0, Low := 0, Close := 0, Volume := 0 }

/-- Second bar fed to the detector: a large body, a violation once the ATR
is ready. -/
def acb2 : Bar :=
  { Timestamp := 1, Open := 0, High := 10, Low := 0, Close := 10, Volume := 0 }

/-- Third bar fed to the detector: ready and non-violating (zero body). -/
def acb3 : Bar :=
  { Timestamp := 2, Open := 5, High := 5, Low := 5, Close := 5, Volume := 0 }

/-- Detector with ATR period 1 and multiplier 1/2, relative-size mode off. -/
def acDetector : ATRCandle := NewATRCandle 1 (1/2) 0 false

/-- Detector state after the first two bars (one violation recorded). -/
def acAfterTwo : ATRCandle := (acDetector.Update acb1).Update acb2

/-- Detector state after the third, ready and non-violating, bar. -/
def acAfterThree : ATRCandle := acAfterTwo.Update acb3

/-- Results with an empty trade list (for the statistics witnesses). -/
def emptyResults : Results :=
  { InitialBalance := 500, FinalBalance := 700, Trades := [] }

/-- Results holding one winning trade (gross loss zero). -/
def winResults : Results :=
  { InitialBalance := 100, FinalBalance := 105, Trades := [testTrade] }

/-- Results holding one losing trade (no winners). -/
def lossResults : Results :=
  { InitialBalance := 100, FinalBalance := 95,
    Trades := [{ testTrade with PnL := -5, ExitPrice := 95, ExitReason := "STOP_LOSS" }] }

/-- A long position with stop-loss 9 and take-profit 11 (both inside the
range of `dtb1`). -/
def c3pos : Position :=
  { ID := 1, OpenTime := 0, Direction := .LONG, EntryPrice := 10, Size := 1,
    StopLoss := 9, TakeProfit := 11 }

/-- Invariant carried through a lifetime of account operations: open
position IDs are strictly increasing and below the next ID, reported trade
IDs are distinct, below the next ID, and disjoint from the open IDs. -/
def accInv (a : Account) (ids : List ℕ) : Prop :=
  ((a.openPositions.map Position.ID).Pairwise (· < ·)) ∧
  (∀ p ∈ a.openPositions, p.ID < a.nextPositionID) ∧
  ids.Nodup ∧
  (∀ i ∈ ids, i < a.nextPositionID) ∧
  (∀ i ∈ ids, i ∉ a.openPositions.map Position.ID)

/-! Helper lemmas about the account operations. -/

theorem closePosition_fst (a : Account) (pos : Position) (x : ℚ) (ts : ℤ)
    (reason : String) :
    (a.closePosition pos x ts reason).1 =
      { a with Balance := a.Balance + (a.closePosition pos x ts reason).2.PnL } := by
  cases h : pos.Direction <;>
    simp [Account.closePosition, h]

theorem checkExitOne_fst_openPositions (a : Account) (pos : Position) (bar : Bar) :
    (a.checkExitOne pos bar).1.openPositions = a.openPositions := by
  cases h : pos.Direction <;>
    simp only [Account.checkExitOne, h, Account.closePosition] <;>
    split_ifs <;> rfl

theorem checkExitOne_fst_nextPositionID (a : Account) (pos : Position) (bar : Bar) :
    (a.checkExitOne pos bar).1.nextPositionID = a.nextPositionID := by
  cases h : pos.Direction <;>
    simp only [Account.checkExitOne, h, Account.closePosition] <;>
    split_ifs <;> rfl

theorem checkExitOne_isSome (a : Account) (pos : Position) (bar : Bar) :
    (a.checkExitOne pos bar).2.isSome = exitTriggered pos bar := by
  cases h : pos.Direction <;>
    simp only [Account.checkExitOne, h, exitTriggered] <;>
    split_ifs with h1 h2 <;> simp_all

theorem checkExitOne_none_eq (a : Account) (pos : Position) (bar : Bar)
    (h : (a.checkExitOne pos bar).2 = none) :
    (a.checkExitOne pos bar).1 = a := by
  cases hd : pos.Direction <;>
    simp only [Account.checkExitOne, hd] at h ⊢ <;>
    split_ifs at h ⊢ <;> simp_all

theorem checkExitOne_some_fields (a : Account) (pos : Position) (bar : Bar)
    (t : Trade) (h : (a.checkExitOne pos bar).2 = some t) :
    t.ID = pos.ID ∧ t.EntryTime = pos.OpenTime ∧ t.ExitTime = bar.Timestamp ∧
      (t.ExitPrice = pos.StopLoss ∨ t.ExitPrice = pos.TakeProfit) ∧
      (t.ExitReason = "STOP_LOSS" ∨ t.ExitReason = "TAKE_PROFIT") := by
  cases hd : pos.Direction <;>
    simp only [Account.checkExitOne, hd, Account.closePosition] at h <;>
    split_ifs at h <;> simp at h <;> (try subst h) <;> simp

theorem checkExitOne_snd_independent (a b : Account) (pos : Position) (bar : Bar) :
    (a.checkExitOne pos bar).2 = (b.checkExitOne pos bar).2 := by
  cases hd : pos.Direction <;>
    simp only [Account.checkExitOne, hd, Account.closePosition] <;>
    split_ifs <;> rfl

theorem checkExitOne_balance_noDouble (a : Account) (pos : Position) (bar : Bar)
    (h : doubleTriggered pos bar = false) :
    (a.checkExitOne pos bar).1.Balance =
      a.Balance + ((a.checkExitOne pos bar).2.elim 0 Trade.PnL) := by
  cases hd : pos.Direction <;>
    simp only [Account.checkExitOne, hd, Account.closePosition,
      doubleTriggered] at h ⊢ <;>
    split_ifs <;> simp_all

theorem checkExitsList_fst_openPositions (ps : List Position) (a : Account)
    (bar : Bar) :
    (a.checkExitsList ps bar).1.openPositions = a.openPositions := by
  induction ps generalizing a with
  | nil => rfl
  | cons pos rest ih =>
    cases h : (a.checkExitOne pos bar).2 <;>
      simp only [Account.checkExitsList, h] <;>
      rw [ih, checkExitOne_fst_openPositions]

theorem checkExitsList_fst_nextPositionID (ps : List Position) (a : Account)
    (bar : Bar) :
    (a.checkExitsList ps bar).1.nextPositionID = a.nextPositionID := by
  induction ps generalizing a with
  | nil => rfl
  | cons pos rest ih =>
    cases h : (a.checkExitOne pos bar).2 <;>
      simp only [Account.checkExitsList, h] <;>
      rw [ih, checkExitOne_fst_nextPositionID]

theorem checkExitsList_remaining (ps : List Position) (a : Account) (bar : Bar) :
    (a.checkExitsList ps bar).2.2 =
      ps.filter (fun p => ! exitTriggered p bar) := by
  induction ps generalizing a with
  | nil => rfl
  | cons pos rest ih =>
    have hsome := checkExitOne_isSome a pos bar
    cases h : (a.checkExitOne pos bar).2 with
    | none =>
      rw [h] at hsome
      simp only [Account.checkExitsList, h, List.filter_cons]
      rw [ih]
      simp at hsome
      simp [← hsome]
    | some t =>
      rw [h] at hsome
      simp only [Account.checkExitsList, h, List.filter_cons]
      rw [ih]
      simp at hsome
      simp [← hsome]

theorem checkExitsList_trades_ids (ps : List Position) (a : Account) (bar : Bar) :
    (a.checkExitsList ps bar).2.1.map Trade.ID =
      (ps.filter (fun p => exitTriggered p bar)).map Position.ID := by
  induction ps generalizing a with
  | nil => rfl
  | cons pos rest ih =>
    have hsome := checkExitOne_isSome a pos bar
    cases h : (a.checkExitOne pos bar).2 with
    | none =>
      rw [h] at hsome
      simp only [Account.checkExitsList, h, List.filter_cons]
      simp at hsome
      rw [ih]
      simp [hsome]
    | some t =>
      rw [h] at hsome
      simp at hsome
      simp [Account.checkExitsList, h, List.filter_cons, hsome, ih,
        (checkExitOne_some_fields a pos bar t h).1]

theorem checkExitsList_trades_mem (ps : List Position) (a : Account) (bar : Bar) :
    ∀ t ∈ (a.checkExitsList ps bar).2.1, ∃ p ∈ ps,
      t.ID = p.ID ∧ t.EntryTime = p.OpenTime ∧ t.ExitTime = bar.Timestamp ∧
      (t.ExitPrice = p.StopLoss ∨ t.ExitPrice = p.TakeProfit) ∧
      (t.ExitReason = "STOP_LOSS" ∨ t.ExitReason = "TAKE_PROFIT") := by
  induction ps generalizing a with
  | nil => intro t ht; simp [Account.checkExitsList] at ht
  | cons pos rest ih =>
    intro t ht
    cases h : (a.checkExitOne pos bar).2 with
    | none =>
      simp only [Account.checkExitsList, h] at ht
      obtain ⟨p, hp, hfields⟩ := ih _ t ht
      exact ⟨p, List.mem_cons_of_mem _ hp, hfields⟩
    | some t0 =>
      simp only [Account.checkExitsList, h, List.mem_cons] at ht
      rcases ht with rfl | ht
      · exact ⟨pos, List.mem_cons_self _ _, checkExitOne_some_fields a pos bar t h⟩
      · obtain ⟨p, hp, hfields⟩ := ih _ t ht
        exact ⟨p, List.mem_cons_of_mem _ hp, hfields⟩

theorem checkExitsList_balance (ps : List Position) (a : Account) (bar : Bar)
    (h : ∀ p ∈ ps, doubleTriggered p bar = false) :
    (a.checkExitsList ps bar).1.Balance =
      a.Balance + ((a.checkExitsList ps bar).2.1.map Trade.PnL).sum := by
  induction ps generalizing a with
  | nil => simp [Account.checkExitsList]
  | cons pos rest ih =>
    have hb := checkExitOne_balance_noDouble a pos bar
      (h pos (List.mem_cons_self _ _))
    have hrest : ∀ p ∈ rest, doubleTriggered p bar = false :=
      fun p hp => h p (List.mem_cons_of_mem _ hp)
    cases hc : (a.checkExitOne pos bar).2 with
    | none =>
      rw [hc] at hb
      simp only [Account.checkExitsList, hc]
      rw [ih _ hrest, hb]
      simp
    | some t =>
      rw [hc] at hb
      simp only [Account.checkExitsList, hc]
      rw [ih _ hrest, hb]
      simp only [Option.elim, List.map_cons, List.sum_cons]
      ring

theorem CheckExits_fst_openPositions (a : Account) (bar : Bar) :
    (a.CheckExits bar).1.openPositions =
      a.openPositions.filter (fun p => ! exitTriggered p bar) := by
  simp only [Account.CheckExits]
  exact checkExitsList_remaining a.openPositions a bar

theorem CheckExits_fst_nextPositionID (a : Account) (bar : Bar) :
    (a.CheckExits bar).1.nextPositionID = a.nextPositionID := by
  simp only [Account.CheckExits]
  exact checkExitsList_fst_nextPositionID a.openPositions a bar

theorem CheckExits_fst_Balance_noDouble (a : Account) (bar : Bar)
    (h : ∀ p ∈ a.openPositions, doubleTriggered p bar = false) :
    (a.CheckExits bar).1.Balance =
      a.Balance + (((a.CheckExits bar).2).map Trade.PnL).sum := by
  simp only [Account.CheckExits]
  exact checkExitsList_balance a.openPositions a bar h

theorem CheckExits_trades_ids (a : Account) (bar : Bar) :
    (a.CheckExits bar).2.map Trade.ID =
      (a.openPositions.filter (fun p => exitTriggered p bar)).map Position.ID := by
  simp only [Account.CheckExits]
  exact checkExitsList_trades_ids a.openPositions a bar

theorem CheckExits_trades_mem (a : Account) (bar : Bar) :
    ∀ t ∈ (a.CheckExits bar).2, ∃ p ∈ a.openPositions,
      t.ID = p.ID ∧ t.EntryTime = p.OpenTime ∧ t.ExitTime = bar.Timestamp ∧
      (t.ExitPrice = p.StopLoss ∨ t.ExitPrice = p.TakeProfit) ∧
      (t.ExitReason = "STOP_LOSS" ∨ t.ExitReason = "TAKE_PROFIT") := by
  simp only [Account.CheckExits]
  exact checkExitsList_trades_mem a.openPositions a bar

theorem closeAllList_balance (ps : List Position) (a : Account) (bar : Bar) :
    (a.closeAllList ps bar).1.Balance =
      a.Balance + ((a.closeAllList ps bar).2.map Trade.PnL).sum := by
  induction ps generalizing a with
  | nil => simp [Account.closeAllList]
  | cons pos rest ih =>
    simp only [Account.closeAllList, List.map_cons, List.sum_cons]
    rw [ih]
    rw [show (a.closePosition pos bar.Close bar.Timestamp "END_OF_BACKTEST").1.Balance
        = a.Balance +
          (a.closePosition pos bar.Close bar.Timestamp "END_OF_BACKTEST").2.PnL by
      rw [closePosition_fst]]
    ring

theorem closeAllList_fst_openPositions (ps : List Position) (a : Account)
    (bar : Bar) :
    (a.closeAllList ps bar).1.openPositions = a.openPositions := by
  induction ps generalizing a with
  | nil => rfl
  | cons pos rest ih =>
    simp only [Account.closeAllList]
    rw [ih, closePosition_fst]

theorem closeAllList_fst_nextPositionID (ps : List Position) (a : Account)
    (bar : Bar) :
    (a.closeAllList ps bar).1.nextPositionID = a.nextPositionID := by
  induction ps generalizing a with
  | nil => rfl
  | cons pos rest ih =>
    simp only [Account.closeAllList]
    rw [ih, closePosition_fst]

theorem closeAllList_trades_ids (ps : List Position) (a : Account) (bar : Bar) :
    (a.closeAllList ps bar).2.map Trade.ID = ps.map Position.ID := by
  induction ps generalizing a with
  | nil => rfl
  | cons pos rest ih =>
    simp only [Account.closeAllList, List.map_cons]
    rw [ih]
    rfl

theorem closeAllList_trades_mem (ps : List Position) (a : Account) (bar : Bar) :
    ∀ t ∈ (a.closeAllList ps bar).2, ∃ p ∈ ps,
      t.ID = p.ID ∧ t.EntryTime = p.OpenTime ∧ t.ExitTime = bar.Timestamp ∧
      t.ExitPrice = bar.Close ∧ t.ExitReason = "END_OF_BACKTEST" := by
  induction ps generalizing a with
  | nil => intro t ht; simp [Account.closeAllList] at ht
  | cons pos rest ih =>
    intro t ht
    simp only [Account.closeAllList, List.mem_cons] at ht
    rcases ht with rfl | ht
    · exact ⟨pos, List.mem_cons_self _ _, rfl, rfl, rfl, rfl, rfl⟩
    · obtain ⟨p, hp, hfields⟩ := ih _ t ht
      exact ⟨p, List.mem_cons_of_mem _ hp, hfields⟩

theorem CloseAll_fst_openPositions (a : Account) (bar : Bar) :
    (a.CloseAll bar).1.openPositions = [] := rfl

theorem CloseAll_fst_Balance (a : Account) (bar : Bar) :
    (a.CloseAll bar).1.Balance =
      a.Balance + ((a.CloseAll bar).2.map Trade.PnL).sum := by
  simp only [Account.CloseAll]
  exact closeAllList_balance a.openPositions a bar

theorem CloseAll_trades_ids (a : Account) (bar : Bar) :
    (a.CloseAll bar).2.map Trade.ID = a.openPositions.map Position.ID := by
  simp only [Account.CloseAll]
  exact closeAllList_trades_ids a.openPositions a bar

theorem OpenTrade_fst_Balance (a : Account) (s : Signal) (ts : ℤ) :
    (a.OpenTrade s ts).1.Balance = a.Balance := rfl

theorem OpenTrade_fst_openPositions (a : Account) (s : Signal) (ts : ℤ) :
    (a.OpenTrade s ts).1.openPositions =
      a.openPositions ++ [(a.OpenTrade s ts).2] := rfl

theorem OpenTrade_fst_nextPositionID (a : Account) (s : Signal) (ts : ℤ) :
    (a.OpenTrade s ts).1.nextPositionID = a.nextPositionID + 1 := rfl

theorem OpenTrade_snd_ID (a : Account) (s : Signal) (ts : ℤ) :
    (a.OpenTrade s ts).2.ID = a.nextPositionID := rfl

theorem OpenTrade_snd_OpenTime (a : Account) (s : Signal) (ts : ℤ) :
    (a.OpenTrade s ts).2.OpenTime = ts := rfl

theorem processSignals_cons (a : Account) (s : Signal) (rest : List Signal)
    (ts : ℤ) :
    processSignals a (s :: rest) ts =
      processSignals
        (if s.SigType = OPEN_TRADE then (a.OpenTrade s ts).1 else a) rest ts := rfl

theorem processSignals_Balance (sigs : List Signal) (a : Account) (ts : ℤ) :
    (processSignals a sigs ts).Balance = a.Balance := by
  induction sigs generalizing a with
  | nil => rfl
  | cons s rest ih =>
    rw [processSignals_cons, ih]
    split <;> rfl

theorem processSignals_openPositions_mem (sigs : List Signal) (a : Account)
    (ts : ℤ) (p : Position)
    (h : p ∈ (processSignals a sigs ts).openPositions) :
    p ∈ a.openPositions ∨ p.OpenTime = ts := by
  induction sigs generalizing a with
  | nil => exact Or.inl h
  | cons s rest ih =>
    rw [processSignals_cons] at h
    rcases ih _ h with h1 | h1
    · by_cases hs : s.SigType = OPEN_TRADE
      · rw [if_pos hs, OpenTrade_fst_openPositions, List.mem_append] at h1
        rcases h1 with h1 | h1
        · exact Or.inl h1
        · simp at h1
          subst h1
          exact Or.inr (OpenTrade_snd_OpenTime a s ts)
      · rw [if_neg hs] at h1
        exact Or.inl h1
    · exact Or.inr h1

theorem checkExitOne_double_long (a : Account) (pos : Position) (bar : Bar)
    (hd : pos.Direction = .LONG) (h1 : bar.Low ≤ pos.StopLoss)
    (h2 : bar.High ≥ pos.TakeProfit) :
    a.checkExitOne pos bar =
      ({ a with Balance := a.Balance + (pos.StopLoss - pos.EntryPrice) * pos.Size
          + (pos.TakeProfit - pos.EntryPrice) * pos.Size },
       some { ID := pos.ID, EntryTime := pos.OpenTime, ExitTime := bar.Timestamp,
              Direction := .LONG, EntryPrice := pos.EntryPrice,
              ExitPrice := pos.TakeProfit, Size := pos.Size,
              StopLoss := pos.StopLoss, TakeProfit := pos.TakeProfit,
              PnL := (pos.TakeProfit - pos.EntryPrice) * pos.Size,
              PnLPercent := (pos.TakeProfit - pos.EntryPrice) * pos.Size
                / pos.EntryPrice * 100,
              ExitReason := "TAKE_PROFIT" }) := by
  simp [Account.checkExitOne, hd, Account.closePosition, h1, h2]

theorem checkExitOne_double_short (a : Account) (pos : Position) (bar : Bar)
    (hd : pos.Direction = .SHORT) (h1 : bar.High ≥ pos.StopLoss)
    (h2 : bar.Low ≤ pos.TakeProfit) :
    a.checkExitOne pos bar =
      ({ a with Balance := a.Balance + (pos.EntryPrice - pos.StopLoss) * pos.Size
          + (pos.EntryPrice - pos.TakeProfit) * pos.Size },
       some { ID := pos.ID, EntryTime := pos.OpenTime, ExitTime := bar.Timestamp,
              Direction := .SHORT, EntryPrice := pos.EntryPrice,
              ExitPrice := pos.TakeProfit, Size := pos.Size,
              StopLoss := pos.StopLoss, TakeProfit := pos.TakeProfit,
              PnL := (pos.EntryPrice - pos.TakeProfit) * pos.Size,
              PnLPercent := (pos.EntryPrice - pos.TakeProfit) * pos.Size
                / pos.EntryPrice * 100,
              ExitReason := "TAKE_PROFIT" }) := by
  simp [Account.checkExitOne, hd, Account.closePosition, h1, h2]

theorem Run_InitialBalance (e : Engine) (strategy : Strategy) :
    (e.Run strategy).InitialBalance = 10000 := by
  cases h : e.Bars.getLast? <;>
    simp [Engine.Run, Engine.RunFull, h]

/-! The claim theorems. -/

/-- C9: running the engine on an empty bar sequence yields no trades and a
final balance equal to the configured initial balance, for every strategy
and every initial balance (the strategy is never consulted). -/
theorem C9_empty_bar_sequence (ib : ℚ) (strategy : Strategy) :
    (Engine.Run { Bars := [], initialBalance := ib } strategy).Trades = [] ∧
    (Engine.Run { Bars := [], initialBalance := ib } strategy).FinalBalance = ib :=
  ⟨rfl, rfl⟩

/-- C4: every run reports the hardcoded initial balance 10000 in its
Results, regardless of the balance the engine was constructed with, and
the statistics derived from that field (TotalPnL, TotalPnLPercent) are
therefore computed against 10000 rather than the configured balance. -/
theorem C4_initial_balance_hardcoded_10000 :
    (∀ (e : Engine) (strategy : Strategy),
      (e.Run strategy).InitialBalance = 10000) ∧
    (∀ (e : Engine) (strategy : Strategy),
      (e.Run strategy).Trades ≠ [] →
        ((e.Run strategy).Calculate).TotalPnL =
          (e.Run strategy).FinalBalance - 10000 ∧
        ((e.Run strategy).Calculate).TotalPnLPercent =
          ((e.Run strategy).FinalBalance - 10000) / 10000 * 100) := by
  constructor
  · exact Run_InitialBalance
  · intro e strategy hne
    have hlen : (e.Run strategy).Trades.length ≠ 0 := by
      simpa [List.length_eq_zero] using hne
    have hib := Run_InitialBalance e strategy
    constructor <;>
      simp [Results.Calculate, hlen, hib]

/-- C3: CheckExits applies exactly the documented directional rules (long:
stop on `Low ≤ SL`, target on `High ≥ TP`; short: stop on `High ≥ SL`,
target on `Low ≤ TP`), every produced trade exits exactly at the stop-loss
or take-profit level, and exactly the untriggered positions remain open,
unchanged and in order. -/
theorem C3_directional_exit_rules :
    (∀ (a : Account) (pos : Position) (bar : Bar),
      (pos.Direction = .LONG →
        ((a.checkExitOne pos bar).2.isSome = true ↔
          bar.Low ≤ pos.StopLoss ∨ bar.High ≥ pos.TakeProfit)) ∧
      (pos.Direction = .SHORT →
        ((a.checkExitOne pos bar).2.isSome = true ↔
          bar.High ≥ pos.StopLoss ∨ bar.Low ≤ pos.TakeProfit)) ∧
      (∀ t, (a.checkExitOne pos bar).2 = some t →
        t.ExitPrice = pos.StopLoss ∨ t.ExitPrice = pos.TakeProfit)) ∧
    (∀ (a : Account) (bar : Bar),
      (a.CheckExits bar).1.openPositions =
        a.openPositions.filter (fun p => ! exitTriggered p bar)) := by
  refine ⟨fun a pos bar => ⟨?_, ?_, ?_⟩, CheckExits_fst_openPositions⟩
  · intro hd
    rw [checkExitOne_isSome]
    simp [exitTriggered, hd, ge_iff_le]
  · intro hd
    rw [checkExitOne_isSome]
    simp [exitTriggered, hd, ge_iff_le]
  · intro t ht
    exact (checkExitOne_some_fields a pos bar t ht).2.2.2.1

/-- C3 witness: at a concrete account, long position and bar whose range
covers both levels, the trigger equivalence holds and fires. -/
theorem C3_witness :
    (((NewAccount 100).checkExitOne c3pos dtb1).2.isSome = true ↔
      dtb1.Low ≤ c3pos.StopLoss ∨ dtb1.High ≥ c3pos.TakeProfit) ∧
    ((NewAccount 100).checkExitOne c3pos dtb1).2.isSome = true :=
  ⟨(C3_directional_exit_rules.1 (NewAccount 100) c3pos dtb1).1 rfl, by decide⟩

/-- C2: when both the stop-loss and the take-profit condition hold for one
position on one bar, the position is closed twice — the balance receives
both PnLs — but only the second (take-profit) Trade is reported; with a
single such open position, CheckExits returns exactly one trade, the
take-profit one. -/
theorem C2_double_close_reports_only_take_profit :
    (∀ (a : Account) (pos : Position) (bar : Bar),
      pos.Direction = .LONG → bar.Low ≤ pos.StopLoss →
      bar.High ≥ pos.TakeProfit →
        (a.checkExitOne pos bar).1.Balance =
          a.Balance + (pos.StopLoss - pos.EntryPrice) * pos.Size
            + (pos.TakeProfit - pos.EntryPrice) * pos.Size ∧
        ∃ t, (a.checkExitOne pos bar).2 = some t ∧
          t.ExitReason = "TAKE_PROFIT" ∧ t.ExitPrice = pos.TakeProfit ∧
          t.PnL = (pos.TakeProfit - pos.EntryPrice) * pos.Size) ∧
    (∀ (a : Account) (pos : Position) (bar : Bar),
      pos.Direction = .SHORT → bar.High ≥ pos.StopLoss →
      bar.Low ≤ pos.TakeProfit →
        (a.checkExitOne pos bar).1.Balance =
          a.Balance + (pos.EntryPrice - pos.StopLoss) * pos.Size
            + (pos.EntryPrice - pos.TakeProfit) * pos.Size ∧
        ∃ t, (a.checkExitOne pos bar).2 = some t ∧
          t.ExitReason = "TAKE_PROFIT" ∧ t.ExitPrice = pos.TakeProfit ∧
          t.PnL = (pos.EntryPrice - pos.TakeProfit) * pos.Size) ∧
    (∀ (a : Account) (pos : Position) (bar : Bar),
      a.openPositions = [pos] → pos.Direction = .LONG →
      bar.Low ≤ pos.StopLoss → bar.High ≥ pos.TakeProfit →
        (a.CheckExits bar).2.length = 1 ∧
        (∀ t ∈ (a.CheckExits bar).2, t.ExitReason = "TAKE_PROFIT") ∧
        (a.CheckExits bar).1.Balance =
          a.Balance + (pos.StopLoss - pos.EntryPrice) * pos.Size
            + (pos.TakeProfit - pos.EntryPrice) * pos.Size) := by
  refine ⟨fun a pos bar hd h1 h2 => ?_, fun a pos bar hd h1 h2 => ?_,
    fun a pos bar hopen hd h1 h2 => ?_⟩
  · rw [checkExitOne_double_long a pos bar hd h1 h2]
    exact ⟨rfl, _, rfl, rfl, rfl, rfl⟩
  · rw [checkExitOne_double_short a pos bar hd h1 h2]
    exact ⟨rfl, _, rfl, rfl, rfl, rfl⟩
  · have hone := checkExitOne_double_long a pos bar hd h1 h2
    constructor
    · simp [Account.CheckExits, hopen, Account.checkExitsList, hone]
    constructor
    · intro t ht
      simp [Account.CheckExits, hopen, Account.checkExitsList, hone] at ht
      rw [ht]
    · simp [Account.CheckExits, hopen, Account.checkExitsList, hone]

/-- C2 witness: the concrete double-trigger fixture — account with balance
100 and one long position, bar range [8, 12] around stop 9 and target 11;
both closures land on the balance (net zero) and one TAKE_PROFIT trade of
PnL 1 is reported. -/
theorem C2_witness :
    ({ Balance := 100, openPositions := [c3pos],
       nextPositionID := 2 : Account }.CheckExits dtb1).2.length = 1 ∧
    ({ Balance := 100, openPositions := [c3pos],
       nextPositionID := 2 : Account }.CheckExits dtb1).1.Balance =
      100 + (c3pos.StopLoss - c3pos.EntryPrice) * c3pos.Size
        + (c3pos.TakeProfit - c3pos.EntryPrice) * c3pos.Size := by
  have h := C2_double_close_reports_only_take_profit.2.2
    { Balance := 100, openPositions := [c3pos], nextPositionID := 2 }
    c3pos dtb1 rfl rfl (by decide) (by decide)
  exact ⟨h.1, h.2.2⟩

/-- C8 (code bug): the violation counter never resets. After the fixture
run, the third bar is ready and non-violating at exactly the state that
`Update` inspects, yet the counter stays at 1 and `Value` stays 1.0; the
spec (and the doc comment of `Value` in the source) require the counter to
reset to zero there, making `Value` 0.0. The increment half of the claim
does hold: the second (violating, ready) bar took the counter to 1. -/
theorem C8_counter_never_resets :
    ({ acAfterTwo with atr := acAfterTwo.atr.Update acb3 }.atr.Ready = true) ∧
    ({ acAfterTwo with atr := acAfterTwo.atr.Update acb3 }.checkViolation acb3
      = false) ∧
    acAfterTwo.violationCount = 1 ∧
    acAfterThree.violationCount = 1 ∧
    acAfterThree.Value = 1 := by
  norm_num [ATRCandle.Update, ATRCandle.checkViolation, ATRCandle.Value,
    ATRCandle.Ready, ATR.Update, ATR.Value, ATR.Ready, EMA.Update, EMA.Value,
    EMA.Ready, NewATRCandle, NewATR, NewEMA, mathAbs, mathMax, acDetector,
    acAfterTwo, acAfterThree, acb1, acb2, acb3]

theorem runBars_balance (bs allBars : List Bar) (strategy : Strategy)
    (a : Account) (i : ℕ)
    (h : Engine.runBarsClean allBars strategy a i bs = true) :
    (Engine.runBars allBars strategy a i bs).1.Balance =
      a.Balance + ((Engine.runBars allBars strategy a i bs).2.map Trade.PnL).sum := by
  induction bs generalizing a i with
  | nil => simp [Engine.runBars]
  | cons bar rest ih =>
    simp only [Engine.runBarsClean, Bool.and_eq_true, List.all_eq_true] at h
    obtain ⟨hclean, hrest⟩ := h
    have hnd : ∀ p ∈ a.openPositions, doubleTriggered p bar = false := by
      intro p hp
      have := hclean p hp
      simpa using this
    simp only [Engine.runBars]
    rw [ih _ _ hrest, processSignals_Balance,
      CheckExits_fst_Balance_noDouble a bar hnd]
    simp only [List.map_append, List.sum_append]
    ring

/-- C1 counterexample: in the double-trigger run (one long position whose
stop-loss 9 and take-profit 11 both lie inside the second bar) the final
balance is 100, while the initial balance plus the sum of the reported
trade PnL is 101 — the claimed identity fails. -/
theorem C1_counterexample :
    (dtEng.Run dtStrat).FinalBalance ≠
      dtEng.initialBalance + ((dtEng.Run dtStrat).Trades.map Trade.PnL).sum := by
  norm_num [Engine.Run, Engine.RunFull, Engine.runBars, Account.CheckExits,
    Account.checkExitsList, Account.checkExitOne, Account.closePosition,
    processSignals, Account.OpenTrade, Account.CloseAll, Account.closeAllList,
    dtEng, dtStrat, dtb0, dtb1, NewAccount, OPEN_TRADE]

/-- C1 (amended): in every run in which no open position has both its
stop-loss and its take-profit condition true on the same bar, the final
balance equals the configured initial balance plus the sum of the PnL of
all returned trades. (When a double trigger occurs, both closures mutate
the balance but only the take-profit trade is reported, and the identity
fails, as the counterexample shows.) -/
theorem C1_balance_conservation (e : Engine) (strategy : Strategy)
    (h : e.RunClean strategy = true) :
    (e.Run strategy).FinalBalance =
      e.initialBalance + (((e.Run strategy).Trades).map Trade.PnL).sum := by
  unfold Engine.Run Engine.RunFull
  unfold Engine.RunClean at h
  cases hl : e.Bars.getLast? with
  | none =>
    simp only [hl]
    exact runBars_balance e.Bars e.Bars strategy (NewAccount e.initialBalance) 0 h
  | some lastBar =>
    simp only [hl]
    rw [CloseAll_fst_Balance,
      runBars_balance e.Bars e.Bars strategy (NewAccount e.initialBalance) 0 h]
    simp only [List.map_append, List.sum_append, NewAccount]
    ring

/-- C1 witness: the four-bar test scenario of the repository is a clean run
(no double trigger), and there the identity holds: 9990 = 10000 + (5 - 15). -/
theorem C1_witness :
    testEng.RunClean testStrat = true ∧
    (testEng.Run testStrat).FinalBalance =
      testEng.initialBalance +
        (((testEng.Run testStrat).Trades).map Trade.PnL).sum := by
  have hclean : testEng.RunClean testStrat = true := by
    norm_num [Engine.RunClean, Engine.runBarsClean, doubleTriggered,
      Engine.runBars, Account.CheckExits, Account.checkExitsList,
      Account.checkExitOne, Account.closePosition, processSignals,
      Account.OpenTrade, testEng, testStrat, tb0, tb1, tb2, tb3, NewAccount,
      OPEN_TRADE]
  exact ⟨hclean, C1_balance_conservation testEng testStrat hclean⟩

theorem runBars_entry_lt_exit (bs allBars : List Bar) (strategy : Strategy)
    (a : Account) (i : ℕ)
    (hpos : ∀ p ∈ a.openPositions, ∀ b ∈ bs, p.OpenTime < b.Timestamp)
    (hinc : (bs.map Bar.Timestamp).Pairwise (· < ·)) :
    ∀ t ∈ (Engine.runBars allBars strategy a i bs).2,
      t.EntryTime < t.ExitTime := by
  induction bs generalizing a i with
  | nil => intro t ht; simp [Engine.runBars] at ht
  | cons bar rest ih =>
    intro t ht
    simp only [Engine.runBars, List.mem_append] at ht
    rcases ht with ht | ht
    · obtain ⟨p, hp, _, hentry, hexit, _⟩ := CheckExits_trades_mem a bar t ht
      rw [hentry, hexit]
      exact hpos p hp bar (List.mem_cons_self _ _)
    · simp only [List.map_cons, List.pairwise_cons] at hinc
      obtain ⟨hhead, hrest⟩ := hinc
      refine ih _ _ ?_ hrest t ht
      intro p hp b hb
      rcases processSignals_openPositions_mem _ _ _ p hp with h1 | h1
      · rw [CheckExits_fst_openPositions] at h1
        exact hpos p (List.mem_of_mem_filter h1) b (List.mem_cons_of_mem _ hb)
      · rw [h1]
        exact hhead b.Timestamp (List.mem_map_of_mem Bar.Timestamp hb)

/-- C5: when the timestamps of the bar sequence are strictly increasing,
every trade closed by CheckExits (reason STOP_LOSS or TAKE_PROFIT) exits
strictly after its entry bar: a position opened on bar i is never exit
checked on bar i itself, because CheckExits for bar i runs before OnBar for
bar i. (END_OF_BACKTEST closures are the only same-bar closures.) -/
theorem C5_no_same_bar_exit (e : Engine) (strategy : Strategy)
    (hinc : (e.Bars.map Bar.Timestamp).Pairwise (· < ·)) :
    ∀ t ∈ (e.Run strategy).Trades,
      (t.ExitReason = "STOP_LOSS" ∨ t.ExitReason = "TAKE_PROFIT") →
        t.EntryTime < t.ExitTime := by
  intro t ht hreason
  have hbase : ∀ p ∈ (NewAccount e.initialBalance).openPositions,
      ∀ b ∈ e.Bars, p.OpenTime < b.Timestamp := by
    intro p hp
    simp [NewAccount] at hp
  unfold Engine.Run Engine.RunFull at ht
  cases hl : e.Bars.getLast? with
  | none =>
    rw [hl] at ht
    exact runBars_entry_lt_exit e.Bars e.Bars strategy _ 0 hbase hinc t ht
  | some lastBar =>
    rw [hl] at ht
    simp only [List.mem_append] at ht
    rcases ht with ht | ht
    · exact runBars_entry_lt_exit e.Bars e.Bars strategy _ 0 hbase hinc t ht
    · obtain ⟨p, hp, _, _, _, _, hr⟩ :=
        closeAllList_trades_mem _ _ lastBar t ht
      rw [hr] at hreason
      rcases hreason with h | h <;> simp at h

/-- C5 witness: in the four-bar test scenario (strictly increasing
timestamps) the take-profit trade entered at time 0 and exited at time 15. -/
theorem C5_witness : testTrade.EntryTime < testTrade.ExitTime := by
  have hmem : testTrade ∈ (testEng.Run testStrat).Trades := by
    norm_num [Engine.Run, Engine.RunFull, Engine.runBars, Account.CheckExits,
      Account.checkExitsList, Account.checkExitOne, Account.closePosition,
      processSignals, Account.OpenTrade, Account.CloseAll,
      Account.closeAllList, testEng, testStrat, tb0, tb1, tb2, tb3, testTrade,
      NewAccount, OPEN_TRADE]
  exact C5_no_same_bar_exit testEng testStrat
    (by norm_num [testEng, tb0, tb1, tb2, tb3])
    testTrade hmem (Or.inr rfl)

/-- C6: CloseAll always leaves the open-position set empty, and after a run
over a non-empty bar sequence the internal account of the engine holds no
open positions (everything was exit-closed or force-closed). -/
theorem C6_open_set_empty_after_run :
    (∀ (a : Account) (bar : Bar), (a.CloseAll bar).1.openPositions = []) ∧
    (∀ (e : Engine) (strategy : Strategy), e.Bars ≠ [] →
      ((e.RunFull strategy).2).openPositions = []) := by
  refine ⟨fun a bar => rfl, fun e strategy hne => ?_⟩
  cases hl : e.Bars.getLast? with
  | none => exact absurd (List.getLast?_eq_none_iff.mp hl) hne
  | some lastBar => simp [Engine.RunFull, hl, CloseAll_fst_openPositions]

/-- C6 witness: after the four-bar test run the account is flat. -/
theorem C6_witness : ((testEng.RunFull testStrat).2).openPositions = [] :=
  C6_open_set_empty_after_run.2 testEng testStrat (by simp [testEng])

/-- C4 witness: the four-bar test run reports initial balance 10000 and a
TotalPnL measured against 10000. -/
theorem C4_witness :
    (testEng.Run testStrat).InitialBalance = 10000 ∧
    ((testEng.Run testStrat).Calculate).TotalPnL =
      (testEng.Run testStrat).FinalBalance - 10000 :=
  ⟨C4_initial_balance_hardcoded_10000.1 testEng testStrat,
   (C4_initial_balance_hardcoded_10000.2 testEng testStrat (by
      norm_num [Engine.Run, Engine.RunFull, Engine.runBars, Account.CheckExits,
        Account.checkExitsList, Account.checkExitOne, Account.closePosition,
        processSignals, Account.OpenTrade, Account.CloseAll,
        Account.closeAllList, testEng, testStrat, tb0, tb1, tb2, tb3,
        NewAccount, OPEN_TRADE]
      try simp)).1⟩

theorem CloseAll_fst_nextPositionID (a : Account) (bar : Bar) :
    (a.CloseAll bar).1.nextPositionID = a.nextPositionID := by
  simp only [Account.CloseAll]
  exact closeAllList_fst_nextPositionID a.openPositions a bar

theorem assignedIDs_eq_range (ops : List AccountOp) (a : Account) :
    assignedIDs a ops = List.range' a.nextPositionID (opensCount ops) := by
  induction ops generalizing a with
  | nil => rfl
  | cons op rest ih =>
    cases op with
    | opOpenTrade s ts =>
      simp only [assignedIDs, opensCount, OpenTrade_snd_ID, List.range'_succ]
      rw [ih, OpenTrade_fst_nextPositionID]
    | opCheckExits bar =>
      simp only [assignedIDs, opensCount, Account.applyOp]
      rw [ih, CheckExits_fst_nextPositionID]
    | opCloseAll bar =>
      simp only [assignedIDs, opensCount, Account.applyOp]
      rw [ih, CloseAll_fst_nextPositionID]

theorem accInv_openTrade (a : Account) (ids : List ℕ) (s : Signal) (ts : ℤ)
    (h : accInv a ids) : accInv (a.OpenTrade s ts).1 ids := by
  obtain ⟨h1, h2, h3, h4, h5⟩ := h
  refine ⟨?_, ?_, h3, ?_, ?_⟩
  · rw [OpenTrade_fst_openPositions, List.map_append, List.pairwise_append]
    refine ⟨h1, by simp, ?_⟩
    intro x hx y hy
    simp only [List.map_cons, List.map_nil, List.mem_singleton] at hy
    rw [hy, OpenTrade_snd_ID]
    obtain ⟨p, hp, rfl⟩ := List.mem_map.mp hx
    exact h2 p hp
  · intro p hp
    rw [OpenTrade_fst_openPositions] at hp
    rw [OpenTrade_fst_nextPositionID]
    rcases List.mem_append.mp hp with hp | hp
    · exact Nat.lt_succ_of_lt (h2 p hp)
    · simp only [List.mem_singleton] at hp
      rw [hp, OpenTrade_snd_ID]
      exact Nat.lt_succ_self _
  · intro i hi
    rw [OpenTrade_fst_nextPositionID]
    exact Nat.lt_succ_of_lt (h4 i hi)
  · intro i hi
    rw [OpenTrade_fst_openPositions, List.map_append]
    intro hmem
    rcases List.mem_append.mp hmem with hm | hm
    · exact h5 i hi hm
    · simp only [List.map_cons, List.map_nil, List.mem_singleton,
        OpenTrade_snd_ID] at hm
      exact absurd hm (Nat.ne_of_lt (h4 i hi))

theorem accInv_checkExits (a : Account) (ids : List ℕ) (bar : Bar)
    (h : accInv a ids) :
    accInv (a.CheckExits bar).1 (ids ++ (a.CheckExits bar).2.map Trade.ID) := by
  obtain ⟨h1, h2, h3, h4, h5⟩ := h
  have hopen := CheckExits_fst_openPositions a bar
  have hids := CheckExits_trades_ids a bar
  have hnext := CheckExits_fst_nextPositionID a bar
  have hsubRem : List.Sublist
      ((a.openPositions.filter (fun p => ! exitTriggered p bar)).map Position.ID)
      (a.openPositions.map Position.ID) :=
    (List.filter_sublist a.openPositions).map Position.ID
  have hsubClosed : List.Sublist
      ((a.openPositions.filter (fun p => exitTriggered p bar)).map Position.ID)
      (a.openPositions.map Position.ID) :=
    (List.filter_sublist a.openPositions).map Position.ID
  have hnodupOpen : (a.openPositions.map Position.ID).Nodup :=
    h1.imp fun hlt => Nat.ne_of_lt hlt
  refine ⟨?_, ?_, ?_, ?_, ?_⟩
  · rw [hopen]
    exact h1.sublist hsubRem
  · intro p hp
    rw [hopen] at hp
    rw [hnext]
    exact h2 p (List.mem_of_mem_filter hp)
  · rw [List.nodup_append]
    refine ⟨h3, ?_, ?_⟩
    · rw [hids]
      exact hnodupOpen.sublist hsubClosed
    · intro i hi hmem
      rw [hids] at hmem
      exact h5 i hi (hsubClosed.subset hmem)
  · intro i hi
    rw [hnext]
    rcases List.mem_append.mp hi with hm | hm
    · exact h4 i hm
    · rw [hids] at hm
      obtain ⟨p, hp, rfl⟩ := List.mem_map.mp hm
      exact h2 p (List.mem_of_mem_filter hp)
  · intro i hi
    rw [hopen]
    rcases List.mem_append.mp hi with hm | hm
    · intro hmem
      exact h5 i hm (hsubRem.subset hmem)
    · rw [hids] at hm
      intro hmem
      obtain ⟨p, hp, rfl⟩ := List.mem_map.mp hm
      obtain ⟨q, hq, hqi⟩ := List.mem_map.mp hmem
      have hpq : q = p :=
        List.inj_on_of_nodup_map hnodupOpen
          (List.mem_of_mem_filter hq) (List.mem_of_mem_filter hp) hqi
      have htp : exitTriggered p bar = true := (List.mem_filter.mp hp).2
      have htq := (List.mem_filter.mp hq).2
      rw [hpq, htp] at htq
      simp at htq

theorem accInv_closeAll (a : Account) (ids : List ℕ) (bar : Bar)
    (h : accInv a ids) :
    accInv (a.CloseAll bar).1 (ids ++ (a.CloseAll bar).2.map Trade.ID) := by
  obtain ⟨h1, h2, h3, h4, h5⟩ := h
  have hids := CloseAll_trades_ids a bar
  have hnext := CloseAll_fst_nextPositionID a bar
  have hnodupOpen : (a.openPositions.map Position.ID).Nodup :=
    h1.imp fun hlt => Nat.ne_of_lt hlt
  refine ⟨?_, ?_, ?_, ?_, ?_⟩
  · rw [CloseAll_fst_openPositions]
    simp
  · intro p hp
    rw [CloseAll_fst_openPositions] at hp
    simp at hp
  · rw [List.nodup_append]
    refine ⟨h3, ?_, ?_⟩
    · rw [hids]
      exact hnodupOpen
    · intro i hi hmem
      rw [hids] at hmem
      exact h5 i hi hmem
  · intro i hi
    rw [hnext]
    rcases List.mem_append.mp hi with hm | hm
    · exact h4 i hm
    · rw [hids] at hm
      obtain ⟨p, hp, rfl⟩ := List.mem_map.mp hm
      exact h2 p hp
  · intro i hi
    rw [CloseAll_fst_openPositions]
    simp

theorem runOps_inv (ops : List AccountOp) (a : Account) (ids : List ℕ)
    (h : accInv a ids) :
    accInv ((a.runOps ops).1) (ids ++ ((a.runOps ops).2).map Trade.ID) := by
  induction ops generalizing a ids with
  | nil =>
    simp only [Account.runOps, List.map_nil, List.append_nil]
    exact h
  | cons op rest ih =>
    simp only [Account.runOps, List.map_append, ← List.append_assoc]
    cases op with
    | opOpenTrade s ts =>
      have step := accInv_openTrade a ids s ts h
      have := ih (a.OpenTrade s ts).1 ids step
      simpa [Account.applyOp] using this
    | opCheckExits bar =>
      have step := accInv_checkExits a ids bar h
      have := ih (a.CheckExits bar).1 _ step
      simpa [Account.applyOp] using this
    | opCloseAll bar =>
      have step := accInv_closeAll a ids bar h
      have := ih (a.CloseAll bar).1 _ step
      simpa [Account.applyOp] using this

/-- C7: over the lifetime of a fresh account, for every sequence of
operations (opens, exit checks, close-alls, in any interleaving) the IDs
handed out by OpenTrade are exactly 1, 2, 3, ... in opening order — they
start at 1, are strictly increasing, and are never reused — and the IDs
carried by all trades the account ever reports are pairwise distinct,
whatever order the positions were closed in. -/
theorem C7_position_ids_strictly_increasing (ib : ℚ) (ops : List AccountOp) :
    assignedIDs (NewAccount ib) ops = List.range' 1 (opensCount ops) ∧
    (assignedIDs (NewAccount ib) ops).Pairwise (· < ·) ∧
    (((NewAccount ib).runOps ops).2.map Trade.ID).Nodup := by
  have hrange := assignedIDs_eq_range ops (NewAccount ib)
  have hbase : accInv (NewAccount ib) [] := by
    refine ⟨by simp [NewAccount], ?_, List.nodup_nil, ?_, ?_⟩ <;>
      simp [NewAccount]
  have hinv := runOps_inv ops (NewAccount ib) [] hbase
  refine ⟨hrange, ?_, ?_⟩
  · rw [hrange]
    exact List.pairwise_lt_range' _ _
  · simpa using hinv.2.2.1

/-- C10: Calculate on an empty trade list yields the all-zero statistics
record, and no division with a zero divisor is performed for any trade
list: the trade-count divisor (win rate, expected value, average duration)
is nonzero whenever the non-empty branch runs, and the guarded fields
(profit factor, average win, average loss) are left at zero instead of
being divided when their divisor is zero. -/
theorem C10_empty_stats_and_division_guards :
    (∀ (ib fb : ℚ),
      Results.Calculate { InitialBalance := ib, FinalBalance := fb, Trades := [] }
        = Statistics.zero) ∧
    (∀ r : Results, r.Trades ≠ [] → ((r.Calculate).TotalTrades : ℚ) ≠ 0) ∧
    (∀ r : Results, r.calcLoop.totalLoss = 0 → (r.Calculate).ProfitFactor = 0) ∧
    (∀ r : Results, r.calcLoop.winning = 0 → (r.Calculate).AvgWin = 0) ∧
    (∀ r : Results, r.calcLoop.losing = 0 → (r.Calculate).AvgLoss = 0) := by
  refine ⟨fun ib fb => rfl, fun r hne => ?_, fun r h => ?_, fun r h => ?_,
    fun r h => ?_⟩
  · have hlen : r.Trades.length ≠ 0 := by
      simpa [List.length_eq_zero] using hne
    have hTT : (r.Calculate).TotalTrades = r.Trades.length := by
      simp [Results.Calculate, hlen]
    rw [hTT]
    exact Nat.cast_ne_zero.mpr hlen
  · by_cases hlen : r.Trades.length = 0
    · simp [Results.Calculate, hlen, Statistics.zero]
    · simp [Results.Calculate, hlen, h]
  · by_cases hlen : r.Trades.length = 0
    · simp [Results.Calculate, hlen, Statistics.zero]
    · simp [Results.Calculate, hlen, h]
  · by_cases hlen : r.Trades.length = 0
    · simp [Results.Calculate, hlen, Statistics.zero]
    · simp [Results.Calculate, hlen, h]

/-- C10 witness: concrete instances — empty results give the zero record;
one winning trade gives profit factor 0 (no losses); one losing trade
gives average win 0 (no winners). -/
theorem C10_witness :
    emptyResults.Calculate = Statistics.zero ∧
    (winResults.Calculate).ProfitFactor = 0 ∧
    (lossResults.Calculate).AvgWin = 0 := by
  refine ⟨C10_empty_stats_and_division_guards.1 500 700,
    C10_empty_stats_and_division_guards.2.2.1 winResults ?_,
    C10_empty_stats_and_division_guards.2.2.2.1 lossResults ?_⟩
  · norm_num [Results.calcLoop, calcStep, winResults, testTrade]
  · norm_num [Results.calcLoop, calcStep, lossResults, testTrade]

end Tradebook
